import Mathlib

/-!
Shallow embedding of `src/vmix_player.cpp`, a frame-accurate FFmpeg/OpenCV
video player.  Machine `int64_t` values are modelled as `Int`; the FFmpeg
sentinel `AV_NOPTS_VALUE` (`INT64_MIN`) is the explicit constant below.  The
demuxer/decoder pipeline is modelled as an environment that supplies the
packets `av_read_frame` would return and, per packet, the frames
`avcodec_receive_frame` would drain (a mid-drain decode error, which the code
handles by breaking out of the drain loop, corresponds to a shorter frame
list).  All arithmetic the program performs stays well inside the `int64_t`
range on the inputs considered, so no wrap-around modelling is needed except
for the explicit `INT64_MAX` clamp that `av_rescale_rnd` itself performs.
-/

/-- `AV_NOPTS_VALUE` from libavutil: `INT64_MIN`. -/
def AV_NOPTS_VALUE : Int := -(2 ^ 63)

/-- `INT64_MAX`, used by `av_rescale_rnd` to clamp a negative input. -/
def INT64_MAX : Int := 2 ^ 63 - 1

/-- `AVRational` from libavutil. -/
structure AVRational where
  num : Int
  den : Int
deriving DecidableEq

/-- `av_inv_q`: swap numerator and denominator. -/
def av_inv_q (q : AVRational) : AVRational := ⟨q.den, q.num⟩

/-- The non-negative branch of `av_rescale_rnd(a, b, c, AV_ROUND_NEAR_INF)`:
`(a * b + c / 2) / c` in C `int64_t` arithmetic (truncating division; all
operands are non-negative here, so truncation is floor). -/
def rescale_core (a b c : Int) : Int := (a * b + c.tdiv 2).tdiv c

/-- `av_rescale_rnd(a, b, c, AV_ROUND_NEAR_INF)`: round `a * b / c` to the
nearest integer, halfway cases away from zero.  A negative `a` is clamped to
`-INT64_MAX` and handled by sign symmetry, exactly as in libavutil. -/
def av_rescale_rnd_near (a b c : Int) : Int :=
  if a < 0 then -(rescale_core (-(max a (-INT64_MAX))) b c) else rescale_core a b c

/-- `av_rescale_q(a, bq, cq)` = `av_rescale_rnd(a, bq.num * cq.den, cq.num * bq.den, AV_ROUND_NEAR_INF)`. -/
def av_rescale_q (a : Int) (bq cq : AVRational) : Int :=
  av_rescale_rnd_near a (bq.num * cq.den) (cq.num * bq.den)

/-- The fields of `AVStream` that the program reads. -/
structure AVStreamInfo where
  avg_frame_rate : AVRational
  r_frame_rate : AVRational
  time_base : AVRational
deriving DecidableEq

/-- The frame-rate selection expression that `frame_number_to_stream_ts`,
`pts_to_frame_number` and `main` (lines 209-210) each compute:
`avg_frame_rate` if its numerator is nonzero, else `r_frame_rate`, with a
final fallback to 25/1 when the chosen rate has a zero numerator or
denominator. -/
def effective_frame_rate (st : AVStreamInfo) : AVRational :=
  let afr := if st.avg_frame_rate.num ≠ 0 then st.avg_frame_rate else st.r_frame_rate
  if afr.num = 0 ∨ afr.den = 0 then ⟨25, 1⟩ else afr

/-- `frame_number_to_stream_ts` (lines 75-80). -/
def frame_number_to_stream_ts (frame_number : Int) (st : AVStreamInfo) : Int :=
  let afr := if st.avg_frame_rate.num ≠ 0 then st.avg_frame_rate else st.r_frame_rate
  let afr2 := if afr.num = 0 ∨ afr.den = 0 then (⟨25, 1⟩ : AVRational) else afr
  let frame_time := av_inv_q afr2
  av_rescale_q frame_number frame_time st.time_base

/-- `pts_to_frame_number` (lines 82-87). -/
def pts_to_frame_number (pts : Int) (st : AVStreamInfo) : Int :=
  let afr := if st.avg_frame_rate.num ≠ 0 then st.avg_frame_rate else st.r_frame_rate
  let afr2 := if afr.num = 0 ∨ afr.den = 0 then (⟨25, 1⟩ : AVRational) else afr
  let frame_time := av_inv_q afr2
  av_rescale_q pts st.time_base frame_time

/-- The fields of a decoded `AVFrame` that the program reads.
`AV_NOPTS_VALUE` encodes an absent timestamp, as in FFmpeg. -/
structure DecFrame where
  best_effort_timestamp : Int
  pts : Int
  width : Int
  height : Int
  format : Int
deriving DecidableEq

/-- The effective-timestamp computation duplicated at lines 123-124 and
159-160: prefer `best_effort_timestamp`, else the frame's `pts`, else
synthesize `last_shown_pts + 1`. -/
def effective_pts (last_shown_pts : Int) (f : DecFrame) : Int :=
  let pts := if f.best_effort_timestamp ≠ AV_NOPTS_VALUE then f.best_effort_timestamp else f.pts
  if pts = AV_NOPTS_VALUE then last_shown_pts + 1 else pts

/-- One `av_read_frame` result: the packet's stream index, whether
`avcodec_send_packet` succeeds on it, and the frames `avcodec_receive_frame`
then drains for it (empty when the decoder answers `EAGAIN` at once; a
drain-time decode error truncates the list, matching the `break` at lines
122/158). -/
structure Packet where
  stream_index : Int
  send_ok : Bool
  frames : List DecFrame
deriving DecidableEq

/-- Environment for one `seek_and_decode_frame` call: whether `av_seek_frame`
succeeds, and the packets the demuxer then delivers. -/
structure DecodeEnv where
  seek_ok : Bool
  packets : List Packet
deriving DecidableEq

/-- The sws-context cache inside `FFPlayer`: `ctx` is the triple the live
`SwsContext` was built for (`none` models a null `sws_ctx`), and
`sws_src_w`/`sws_src_h`/`sws_src_fmt` are the cached comparison keys. -/
structure SwsCache where
  ctx : Option (Int × Int × Int)
  src_w : Int
  src_h : Int
  src_fmt : Int
deriving DecidableEq

/-- Initial cache state from the `FFPlayer` field initializers (lines 25-28):
null context, `-1`, `-1`, `AV_PIX_FMT_NONE = -1`. -/
def initSws : SwsCache := ⟨none, -1, -1, -1⟩

/-- The mutable `FFPlayer` fields the decode paths touch.  The format,
codec and stream handles are represented only by `video_stream_idx` and the
stream parameters, which is all the program reads from them; they are
non-null whenever the decode functions run (open has succeeded). -/
structure FFPlayer where
  video_stream_idx : Int
  video_stream : AVStreamInfo
  sws : SwsCache
  last_shown_pts : Int
deriving DecidableEq

/-- `(width, height, format)` of a frame, the key of the sws cache. -/
def frameTriple (f : DecFrame) : Int × Int × Int := (f.width, f.height, f.format)

/-- The rebuild test at line 52:
`!p.sws_ctx || p.sws_src_w != width || p.sws_src_h != height || p.sws_src_fmt != src_fmt`. -/
def sws_needs_rebuild (c : SwsCache) (f : DecFrame) : Bool :=
  c.ctx.isNone || c.src_w != f.width || c.src_h != f.height || c.src_fmt != f.format

/-- `avframe_to_cvmat` (lines 46-73), restricted to its effect on the cache:
returns the updated cache and the triple the `SwsContext` used for the
`sws_scale` call was built for.  `sws_getContext` is modelled as succeeding
(an allocation failure is fatal and out of scope). -/
def avframe_to_cvmat (c : SwsCache) (f : DecFrame) : SwsCache × (Int × Int × Int) :=
  if sws_needs_rebuild c f then
    (⟨some (frameTriple f), f.width, f.height, f.format⟩, frameTriple f)
  else
    (c, c.ctx.getD (frameTriple f))

/-- The frame-drain scan of `seek_and_decode_frame` (lines 119-133): walk the
yielded frames, compute each one's effective timestamp against the constant
`last_shown_pts`, and stop at the first whose effective timestamp reaches
`target_ts`, returning it together with that timestamp. -/
def scan_frames (last target_ts : Int) : List DecFrame → Option (DecFrame × Int)
  | [] => none
  | f :: rest =>
    let pts := effective_pts last f
    if pts ≥ target_ts then some (f, pts) else scan_frames last target_ts rest

/-- The effective timestamps assigned, in order, to the frames the scan of
`seek_and_decode_frame` examines (the skipped ones and, last, the returned
one if any). -/
def scan_frames_trace (last target_ts : Int) : List DecFrame → List Int
  | [] => []
  | f :: rest =>
    let pts := effective_pts last f
    if pts ≥ target_ts then [pts] else pts :: scan_frames_trace last target_ts rest

/-- The packet loop of `seek_and_decode_frame` (lines 108-134): skip packets
of other streams and packets `avcodec_send_packet` rejects, drain the rest;
on delivery set `last_shown_pts` to the delivered effective timestamp. -/
def scan_packets (p : FFPlayer) (target_ts : Int) : List Packet → Option DecFrame × FFPlayer
  | [] => (none, p)
  | pk :: rest =>
    if pk.stream_index ≠ p.video_stream_idx then scan_packets p target_ts rest
    else if pk.send_ok = false then scan_packets p target_ts rest
    else
      match scan_frames p.last_shown_pts target_ts pk.frames with
      | some (f, pts) => (some f, { p with last_shown_pts := pts })
      | none => scan_packets p target_ts rest

/-- `seek_and_decode_frame` (lines 92-136): compute the target timestamp,
seek backward (failure returns no frame with the state untouched), flush, and
scan the packets the demuxer yields from the seek landing point. -/
def seek_and_decode_frame (p : FFPlayer) (target_frame_number : Int) (env : DecodeEnv) :
    Option DecFrame × FFPlayer :=
  let target_ts := frame_number_to_stream_ts target_frame_number p.video_stream
  if env.seek_ok = false then (none, p)
  else scan_packets p target_ts env.packets

/-- `decode_next_frame` (lines 138-168): read packets from the current
demuxer position, skip other streams and rejected packets, and return the
first drained frame, setting `last_shown_pts` to its effective timestamp. -/
def decode_next_frame (p : FFPlayer) : List Packet → Option DecFrame × FFPlayer
  | [] => (none, p)
  | pk :: rest =>
    if pk.stream_index ≠ p.video_stream_idx then decode_next_frame p rest
    else if pk.send_ok = false then decode_next_frame p rest
    else
      match pk.frames with
      | [] => decode_next_frame p rest
      | f :: _ =>
        let pts := effective_pts p.last_shown_pts f
        (some f, { p with last_shown_pts := pts })

/-- The key/ tick events `cv::waitKey` delivers to the main loop (lines
230-272): `tick` is the `-1` timeout while playing, the rest are the handled
keys (`Esc`/`q`, space, `n`/right, `b`/left, `s`, `p`, anything else). -/
inductive Key where
  | tick
  | quit
  | space
  | stepN
  | stepB
  | playS
  | pauseP
  | other
deriving DecidableEq

/-- The main-loop state: the player, `current_frame`, `playing`,
`should_quit`. -/
structure LoopState where
  player : FFPlayer
  current_frame : Int
  playing : Bool
  quit : Bool
deriving DecidableEq

/-- One iteration of the `while (!should_quit)` loop (lines 230-272),
parameterized by the event and by the demuxer/decoder behaviour for whatever
decode call the iteration makes. -/
def loop_step (s : LoopState) (k : Key) (env : DecodeEnv) : LoopState :=
  match k with
  | .tick =>
    if s.playing then
      match decode_next_frame s.player env.packets with
      | (none, p') => { s with player := p', playing := false }
      | (some f, p') =>
        let r := avframe_to_cvmat p'.sws f
        let p'' := { p' with sws := r.1 }
        { s with player := p'',
                 current_frame := pts_to_frame_number p''.last_shown_pts p''.video_stream }
    else s
  | .quit => { s with quit := true }
  | .space => { s with playing := !s.playing }
  | .stepN =>
    let target := s.current_frame + 1
    match seek_and_decode_frame s.player target env with
    | (none, p') => { s with player := p', playing := false }
    | (some f, p') =>
      let r := avframe_to_cvmat p'.sws f
      let p'' := { p' with sws := r.1 }
      { s with player := p'',
               current_frame := pts_to_frame_number p''.last_shown_pts p''.video_stream,
               playing := false }
  | .stepB =>
    let target := if s.current_frame > 0 then s.current_frame - 1 else 0
    match seek_and_decode_frame s.player target env with
    | (none, p') => { s with player := p', playing := false }
    | (some f, p') =>
      let r := avframe_to_cvmat p'.sws f
      let p'' := { p' with sws := r.1 }
      { s with player := p'',
               current_frame := pts_to_frame_number p''.last_shown_pts p''.video_stream,
               playing := false }
  | .playS => { s with playing := true }
  | .pauseP => { s with playing := false }
  | .other => s

/-- Run the main loop on a list of events (each with the decoder behaviour
for that iteration), stopping once `should_quit` is set. -/
def run (s : LoopState) : List (Key × DecodeEnv) → LoopState
  | [] => s
  | (k, env) :: rest => if s.quit then s else run (loop_step s k env) rest

/-- The `FFPlayer` right before the first decode in `main` (lines 179-215):
`last_shown_pts = AV_NOPTS_VALUE`, empty sws cache. -/
def initial_player (st : AVStreamInfo) (idx : Int) : FFPlayer :=
  ⟨idx, st, initSws, AV_NOPTS_VALUE⟩

/-- The open path of `main` (lines 214-228) after the session-level setup
succeeded: take the first frame with `seek_and_decode_frame(player, 0)`
(failure aborts startup, modelled as `none`), convert it, start paused, and
recompute `current_frame` from `last_shown_pts`. -/
def ffplayer_open (st : AVStreamInfo) (idx : Int) (env : DecodeEnv) : Option LoopState :=
  let p0 := initial_player st idx
  match seek_and_decode_frame p0 0 env with
  | (none, _) => none
  | (some f, p1) =>
    let r := avframe_to_cvmat p1.sws f
    let p2 : FFPlayer := { p1 with sws := r.1 }
    some { player := p2,
           current_frame := pts_to_frame_number p2.last_shown_pts p2.video_stream,
           playing := false, quit := false }

/-- Specification-side description for the seek scan: the first yielded
frame, paired with its effective timestamp, whose effective timestamp
reaches `target_ts`. -/
def first_eligible (last target_ts : Int) (fs : List DecFrame) : Option (DecFrame × Int) :=
  (fs.map (fun f => (f, effective_pts last f))).find? (fun ft => decide (target_ts ≤ ft.2))

/-- Specification-side description of the frames the decoder yields to the
scan: the concatenated drained frames of the packets that belong to the
selected stream and that `avcodec_send_packet` accepts. -/
def yielded_frames (idx : Int) : List Packet → List DecFrame
  | [] => []
  | pk :: rest =>
    if pk.stream_index = idx ∧ pk.send_ok = true then pk.frames ++ yielded_frames idx rest
    else yielded_frames idx rest

/-- Number of changes in a list of triples relative to a current value. -/
def countChanges (t : Int × Int × Int) : List (Int × Int × Int) → Nat
  | [] => 0
  | u :: rest => (if u = t then 0 else 1) + countChanges u rest

/-- Number of distinct consecutive triples in a list (each maximal run of
equal consecutive triples counts once). -/
def countConsecDistinct : List (Int × Int × Int) → Nat
  | [] => 0
  | t :: rest => 1 + countChanges t rest

/-- A sequence of `avframe_to_cvmat` calls: final cache, number of rebuilds,
and the triple of the context used for each conversion. -/
def runConvert : SwsCache → List DecFrame → SwsCache × Nat × List (Int × Int × Int)
  | c, [] => (c, 0, [])
  | c, f :: fs =>
    let rebuilt := sws_needs_rebuild c f
    let r := avframe_to_cvmat c f
    let rec' := runConvert r.1 fs
    (rec'.1, (if rebuilt then 1 else 0) + rec'.2.1, r.2 :: rec'.2.2)

/-- A cache whose live context matches its cached comparison keys (every
cache produced by a rebuild has this shape). -/
def mkCache (t : Int × Int × Int) : SwsCache := ⟨some t, t.1, t.2.1, t.2.2⟩

/-- Validity of the stream fields as FFmpeg produces them: a positive time
base and non-negative rational rate fields. -/
def ValidStream (st : AVStreamInfo) : Prop :=
  0 < st.time_base.num ∧ 0 < st.time_base.den ∧
  0 ≤ st.avg_frame_rate.num ∧ 0 ≤ st.avg_frame_rate.den ∧
  0 ≤ st.r_frame_rate.num ∧ 0 ≤ st.r_frame_rate.den

instance (st : AVStreamInfo) : Decidable (ValidStream st) := by
  unfold ValidStream; infer_instance

/-- A 25 fps stream with a 1/90000 time base (frame duration 3600 ticks). -/
def stW : AVStreamInfo := ⟨⟨25, 1⟩, ⟨25, 1⟩, ⟨1, 90000⟩⟩

/-- A 25 fps stream with the coarse time base 1/10: one time-base tick spans
2.5 frames. -/
def stCoarse : AVStreamInfo := ⟨⟨25, 1⟩, ⟨25, 1⟩, ⟨1, 10⟩⟩

/-- A stream with a zero declared average rate but a valid real base rate of
30 fps. -/
def stZeroAvg : AVStreamInfo := ⟨⟨0, 1⟩, ⟨30, 1⟩, ⟨1, 90000⟩⟩

/-- A frame with no timestamp at all. -/
def frNoTs : DecFrame := ⟨AV_NOPTS_VALUE, AV_NOPTS_VALUE, 640, 480, 0⟩

/-- A frame stamped 200. -/
def fr200 : DecFrame := ⟨200, 200, 640, 480, 0⟩

/-- Scan input with two timestamp-less frames before a stamped one. -/
def cexFrames : List DecFrame := [frNoTs, frNoTs, fr200]

/-- A frame stamped 0. -/
def fr0 : DecFrame := ⟨0, 0, 640, 480, 0⟩

/-- A frame stamped 18000 (frame 5 at 25 fps over 1/90000). -/
def fr18000 : DecFrame := ⟨18000, 18000, 640, 480, 0⟩

/-- Environment delivering a single video packet whose one frame is stamped 0. -/
def envW : DecodeEnv := ⟨true, [⟨0, true, [fr0]⟩]⟩

/-- Environment delivering a single video packet whose one frame is stamped
18000: a stream that starts late. -/
def envLate : DecodeEnv := ⟨true, [⟨0, true, [fr18000]⟩]⟩

/-- The state `ffplayer_open` produces on `stW`/`envW`. -/
def openWState : LoopState :=
  ⟨⟨0, stW, ⟨some (640, 480, 0), 640, 480, 0⟩, 0⟩, 0, false, false⟩

/-- The drift-prevention invariant of `main`: `current_frame` equals the
frame number recomputed from `last_shown_pts` (lines 228, 240, 254, 265). -/
def LoopInv (s : LoopState) : Prop :=
  s.current_frame = pts_to_frame_number s.player.last_shown_pts s.player.video_stream

lemma scan_frames_eq_find (last t : Int) (fs : List DecFrame) :
    scan_frames last t fs = first_eligible last t fs := by
  induction fs with
  | nil => simp [scan_frames, first_eligible]
  | cons f rest ih =>
    simp only [scan_frames, first_eligible, List.map_cons, List.find?_cons]
    by_cases hge : effective_pts last f ≥ t
    · rw [if_pos hge]
      rw [show decide (t ≤ effective_pts last f) = true from decide_eq_true hge]
    · rw [if_neg hge]
      rw [show decide (t ≤ effective_pts last f) = false from
        decide_eq_false (by exact hge)]
      exact ih

lemma first_eligible_append (last t : Int) (l1 l2 : List DecFrame) :
    first_eligible last t (l1 ++ l2) =
      (first_eligible last t l1).or (first_eligible last t l2) := by
  simp [first_eligible, List.map_append, List.find?_append]

lemma scan_packets_eq (p : FFPlayer) (t : Int) (pks : List Packet) :
    scan_packets p t pks =
      match first_eligible p.last_shown_pts t (yielded_frames p.video_stream_idx pks) with
      | some (f, pts) => (some f, { p with last_shown_pts := pts })
      | none => (none, p) := by
  induction pks with
  | nil => simp [scan_packets, yielded_frames, first_eligible]
  | cons pk rest ih =>
    by_cases hidx : pk.stream_index = p.video_stream_idx
    · by_cases hsend : pk.send_ok = true
      · have hy : yielded_frames p.video_stream_idx (pk :: rest) =
            pk.frames ++ yielded_frames p.video_stream_idx rest := by
          simp [yielded_frames, hidx, hsend]
        rw [hy]
        rw [first_eligible_append]
        have hstep : scan_packets p t (pk :: rest) =
            match scan_frames p.last_shown_pts t pk.frames with
            | some (f, pts) => (some f, { p with last_shown_pts := pts })
            | none => scan_packets p t rest := by
          simp [scan_packets, hidx, hsend]
        rw [hstep, scan_frames_eq_find]
        rcases hfe : first_eligible p.last_shown_pts t pk.frames with _ | ⟨f, pts⟩
        · simp [Option.or, ih]
        · simp [Option.or]
      · have hsend' : pk.send_ok = false := by
          cases h : pk.send_ok
          · rfl
          · exact absurd h hsend
        have hy : yielded_frames p.video_stream_idx (pk :: rest) =
            yielded_frames p.video_stream_idx rest := by
          simp [yielded_frames, hsend']
        rw [hy, ← ih]
        simp [scan_packets, hidx, hsend']
    · have hy : yielded_frames p.video_stream_idx (pk :: rest) =
          yielded_frames p.video_stream_idx rest := by
        simp [yielded_frames, hidx]
      rw [hy, ← ih]
      simp [scan_packets, hidx]

lemma scan_packets_none_eq (p : FFPlayer) (t : Int) (pks : List Packet)
    (h : (scan_packets p t pks).1 = none) : (scan_packets p t pks).2 = p := by
  induction pks with
  | nil => rfl
  | cons pk rest ih =>
    by_cases hidx : pk.stream_index = p.video_stream_idx
    · by_cases hsend : pk.send_ok = true
      · rcases hsf : scan_frames p.last_shown_pts t pk.frames with _ | ⟨f, pts⟩
        · have hstep : scan_packets p t (pk :: rest) = scan_packets p t rest := by
            simp [scan_packets, hidx, hsend, hsf]
          rw [hstep] at h ⊢
          exact ih h
        · have hstep : scan_packets p t (pk :: rest) =
              (some f, { p with last_shown_pts := pts }) := by
            simp [scan_packets, hidx, hsend, hsf]
          rw [hstep] at h
          exact absurd h (by simp)
      · have hsend' : pk.send_ok = false := by
          cases hx : pk.send_ok
          · rfl
          · exact absurd hx hsend
        have hstep : scan_packets p t (pk :: rest) = scan_packets p t rest := by
          simp [scan_packets, hidx, hsend']
        rw [hstep] at h ⊢
        exact ih h
    · have hstep : scan_packets p t (pk :: rest) = scan_packets p t rest := by
        simp [scan_packets, hidx]
      rw [hstep] at h ⊢
      exact ih h

lemma seek_none_eq (p : FFPlayer) (tfn : Int) (env : DecodeEnv)
    (h : (seek_and_decode_frame p tfn env).1 = none) :
    (seek_and_decode_frame p tfn env).2 = p := by
  unfold seek_and_decode_frame at h ⊢
  cases hok : env.seek_ok
  · simp [hok]
  · simp only [hok] at h ⊢
    simp only [Bool.true_eq_false, if_false] at h ⊢
    exact scan_packets_none_eq _ _ _ h

lemma decode_next_none_eq (p : FFPlayer) (pks : List Packet)
    (h : (decode_next_frame p pks).1 = none) : (decode_next_frame p pks).2 = p := by
  induction pks with
  | nil => rfl
  | cons pk rest ih =>
    by_cases hidx : pk.stream_index = p.video_stream_idx
    · by_cases hsend : pk.send_ok = true
      · rcases hfr : pk.frames with _ | ⟨f, fs⟩
        · have hstep : decode_next_frame p (pk :: rest) = decode_next_frame p rest := by
            simp [decode_next_frame, hidx, hsend, hfr]
          rw [hstep] at h ⊢
          exact ih h
        · have hstep : decode_next_frame p (pk :: rest) =
              (some f, { p with last_shown_pts := effective_pts p.last_shown_pts f }) := by
            simp [decode_next_frame, hidx, hsend, hfr]
          rw [hstep] at h
          exact absurd h (by simp)
      · have hsend' : pk.send_ok = false := by
          cases hx : pk.send_ok
          · rfl
          · exact absurd hx hsend
        have hstep : decode_next_frame p (pk :: rest) = decode_next_frame p rest := by
          simp [decode_next_frame, hidx, hsend']
        rw [hstep] at h ⊢
        exact ih h
    · have hstep : decode_next_frame p (pk :: rest) = decode_next_frame p rest := by
        simp [decode_next_frame, hidx]
      rw [hstep] at h ⊢
      exact ih h

/-- C2: `seek_and_decode_frame` returns exactly the first yielded frame whose
effective timestamp reaches the target timestamp computed from the target
frame number, updating `last_shown_pts` to that effective timestamp; if the
yielded frames are exhausted, or the backward seek fails, it returns no frame
(state untouched). -/
theorem seek_returns_first_eligible_frame (p : FFPlayer) (tfn : Int) (env : DecodeEnv) :
    seek_and_decode_frame p tfn env =
      if env.seek_ok = true then
        match first_eligible p.last_shown_pts
            (frame_number_to_stream_ts tfn p.video_stream)
            (yielded_frames p.video_stream_idx env.packets) with
        | some (f, pts) => (some f, { p with last_shown_pts := pts })
        | none => (none, p)
      else (none, p) := by
  unfold seek_and_decode_frame
  cases hok : env.seek_ok
  · simp [hok]
  · simp only [hok, Bool.true_eq_false, if_false, if_true]
    exact scan_packets_eq p _ env.packets

/-- C8: `last_shown_pts` is updated only on confirmed frame delivery: on any
frame-less outcome of `seek_and_decode_frame` (failed seek or exhausted scan)
or of `decode_next_frame` (end of stream), it keeps its prior value. -/
theorem last_shown_pts_only_on_delivery (p : FFPlayer) (tfn : Int) (env : DecodeEnv)
    (pks : List Packet)
    (h1 : (seek_and_decode_frame p tfn env).1 = none)
    (h2 : (decode_next_frame p pks).1 = none) :
    (seek_and_decode_frame p tfn env).2.last_shown_pts = p.last_shown_pts ∧
    (decode_next_frame p pks).2.last_shown_pts = p.last_shown_pts := by
  constructor
  · rw [seek_none_eq p tfn env h1]
  · rw [decode_next_none_eq p pks h2]

/-- Witness for C8 at a failing seek and an exhausted packet list. -/
theorem last_shown_pts_only_on_delivery_witness :
    (seek_and_decode_frame (initial_player stW 0) 3 ⟨false, []⟩).2.last_shown_pts =
        (initial_player stW 0).last_shown_pts ∧
    (decode_next_frame (initial_player stW 0) []).2.last_shown_pts =
        (initial_player stW 0).last_shown_pts :=
  last_shown_pts_only_on_delivery (initial_player stW 0) 3 ⟨false, []⟩ []
    (by decide) (by decide)

lemma sws_needs_rebuild_mkCache (w h fm : Int) (f : DecFrame) :
    sws_needs_rebuild (mkCache (w, h, fm)) f = true ↔ frameTriple f ≠ (w, h, fm) := by
  simp [sws_needs_rebuild, mkCache, frameTriple, Prod.ext_iff, bne_iff_ne]
  tauto

lemma runConvert_mkCache (fs : List DecFrame) :
    ∀ w h fm : Int,
      (runConvert (mkCache (w, h, fm)) fs).2.1 = countChanges (w, h, fm) (fs.map frameTriple) ∧
      (runConvert (mkCache (w, h, fm)) fs).2.2 = fs.map frameTriple := by
  induction fs with
  | nil => intro w h fm; simp [runConvert, countChanges]
  | cons f rest ih =>
    intro w h fm
    by_cases hft : frameTriple f = (w, h, fm)
    · have hnr : sws_needs_rebuild (mkCache (w, h, fm)) f = false := by
        cases hx : sws_needs_rebuild (mkCache (w, h, fm)) f
        · rfl
        · exact absurd ((sws_needs_rebuild_mkCache w h fm f).mp hx) (by simp [hft])
      have hconv : avframe_to_cvmat (mkCache (w, h, fm)) f = (mkCache (w, h, fm), (w, h, fm)) := by
        unfold avframe_to_cvmat
        rw [hnr]
        simp [mkCache]
      simp only [runConvert, hconv, hnr, List.map_cons, countChanges, hft, if_pos rfl]
      refine ⟨?_, ?_⟩
      · simpa using (ih w h fm).1
      · simpa [hft] using (ih w h fm).2
    · have hnr : sws_needs_rebuild (mkCache (w, h, fm)) f = true :=
        (sws_needs_rebuild_mkCache w h fm f).mpr hft
      have hconv : avframe_to_cvmat (mkCache (w, h, fm)) f =
          (mkCache (frameTriple f), frameTriple f) := by
        unfold avframe_to_cvmat
        rw [hnr]
        simp [mkCache, frameTriple]
      simp only [runConvert, hconv, hnr, List.map_cons, countChanges, if_neg hft, if_true]
      have ih' := ih f.width f.height f.format
      refine ⟨?_, ?_⟩
      · have : (runConvert (mkCache (frameTriple f)) rest).2.1 =
            countChanges (frameTriple f) (rest.map frameTriple) := by
          simpa [frameTriple] using ih'.1
        omega
      · simpa [frameTriple] using ih'.2

lemma sws_needs_rebuild_init (f : DecFrame) : sws_needs_rebuild initSws f = true := by
  simp [sws_needs_rebuild, initSws]

/-- C6: starting from the empty cache, the number of `ConversionContext`
rebuilds over any call sequence equals the number of distinct consecutive
`(width, height, format)` triples observed, the very first call always
rebuilds (`sws_needs_rebuild` holds on the initial cache), a cache produced
by a rebuild triggers another rebuild exactly when the incoming triple
differs from the one it was built for, and every conversion uses a context
built for exactly the incoming frame's triple. -/
theorem sws_rebuild_exactly_on_triple_change (fs : List DecFrame) :
    (runConvert initSws fs).2.1 = countConsecDistinct (fs.map frameTriple) ∧
    (runConvert initSws fs).2.2 = fs.map frameTriple ∧
    (∀ f : DecFrame, sws_needs_rebuild initSws f = true) ∧
    (∀ (w h fm : Int) (f : DecFrame),
      sws_needs_rebuild (mkCache (w, h, fm)) f = true ↔ frameTriple f ≠ (w, h, fm)) := by
  refine ⟨?_, ?_, sws_needs_rebuild_init, sws_needs_rebuild_mkCache⟩
  · cases fs with
    | nil => simp [runConvert, countConsecDistinct]
    | cons f rest =>
      have hnr := sws_needs_rebuild_init f
      have hconv : avframe_to_cvmat initSws f = (mkCache (frameTriple f), frameTriple f) := by
        unfold avframe_to_cvmat
        rw [hnr]
        simp [mkCache, frameTriple]
      simp only [runConvert, hconv, hnr, List.map_cons, countConsecDistinct, if_true]
      have := (runConvert_mkCache rest f.width f.height f.format).1
      simp only [frameTriple] at this ⊢
      omega
  · cases fs with
    | nil => simp [runConvert]
    | cons f rest =>
      have hnr := sws_needs_rebuild_init f
      have hconv : avframe_to_cvmat initSws f = (mkCache (frameTriple f), frameTriple f) := by
        unfold avframe_to_cvmat
        rw [hnr]
        simp [mkCache, frameTriple]
      simp only [runConvert, hconv, hnr, List.map_cons, if_true]
      have := (runConvert_mkCache rest f.width f.height f.format).2
      simpa [frameTriple] using this

lemma frame_ts_via_effective_rate (n : Int) (st : AVStreamInfo) :
    frame_number_to_stream_ts n st =
      av_rescale_q n (av_inv_q (effective_frame_rate st)) st.time_base := rfl

lemma pts_fn_via_effective_rate (ts : Int) (st : AVStreamInfo) :
    pts_to_frame_number ts st =
      av_rescale_q ts st.time_base (av_inv_q (effective_frame_rate st)) := rfl

lemma effective_frame_rate_eq (st : AVStreamInfo) :
    effective_frame_rate st =
      (if st.avg_frame_rate.num = 0 then
        (if st.r_frame_rate.num = 0 ∨ st.r_frame_rate.den = 0 then ⟨25, 1⟩
         else st.r_frame_rate)
       else
        (if st.avg_frame_rate.den = 0 then ⟨25, 1⟩ else st.avg_frame_rate)) := by
  simp only [effective_frame_rate]
  by_cases hA : st.avg_frame_rate.num = 0
  · rw [if_neg (not_not_intro hA), if_pos hA]
  · rw [if_pos hA, if_neg hA]
    by_cases hB : st.avg_frame_rate.den = 0
    · rw [if_pos (Or.inr hB), if_pos hB]
    · rw [if_neg ?_, if_neg hB]
      rintro (hx | hx)
      · exact hA hx
      · exact hB hx

/-- C10: the rate-selection chain shared by both conversions: when the
declared average rate has a zero numerator the stream's real base rate
`r_frame_rate` is used, and 25/1 only when that is also invalid (zero
numerator or denominator); an average rate with nonzero numerator but zero
denominator also falls back to 25/1.  Both `frame_number_to_stream_ts` and
`pts_to_frame_number` rescale through this one effective rate. -/
theorem rate_fallback_chain (st : AVStreamInfo) (n ts : Int) :
    effective_frame_rate st =
      (if st.avg_frame_rate.num = 0 then
        (if st.r_frame_rate.num = 0 ∨ st.r_frame_rate.den = 0 then ⟨25, 1⟩
         else st.r_frame_rate)
       else
        (if st.avg_frame_rate.den = 0 then ⟨25, 1⟩ else st.avg_frame_rate)) ∧
    frame_number_to_stream_ts n st =
      av_rescale_q n (av_inv_q (effective_frame_rate st)) st.time_base ∧
    pts_to_frame_number ts st =
      av_rescale_q ts st.time_base (av_inv_q (effective_frame_rate st)) :=
  ⟨effective_frame_rate_eq st, frame_ts_via_effective_rate n st, pts_fn_via_effective_rate ts st⟩

/-- Counterexample to C4: on a stream whose declared average rate is zero but
whose real base rate is a valid 30 fps, the substituted rate is 30/1, not
25/1, and the seek-target computation observably differs from the one a
25 fps fallback would produce. -/
theorem fallback_rate_counterexample :
    stZeroAvg.avg_frame_rate.num = 0 ∧
    effective_frame_rate stZeroAvg = ⟨30, 1⟩ ∧
    (⟨30, 1⟩ : AVRational) ≠ ⟨25, 1⟩ ∧
    frame_number_to_stream_ts 1 stZeroAvg = 3000 ∧
    av_rescale_q 1 (av_inv_q ⟨25, 1⟩) stZeroAvg.time_base = 3600 ∧
    (3000 : Int) ≠ 3600 := by
  refine ⟨by decide, by decide, by decide, by decide, by decide, by decide⟩

/-- C4 as amended: when the declared average rate is zero (zero numerator),
the substituted rate is the stream's real base rate `r_frame_rate` when that
one is valid and 25/1 when it is not; when the declared average rate is
invalid with a nonzero numerator (zero denominator), 25/1 is substituted as
originally claimed, without consulting `r_frame_rate`; in every case both
conversions rescale through the same effective rate. -/
theorem fallback_rate_amended (st : AVStreamInfo) (n ts : Int)
    (h : st.avg_frame_rate.num = 0 ∨ st.avg_frame_rate.den = 0) :
    effective_frame_rate st =
      (if st.avg_frame_rate.num = 0 ∧ st.r_frame_rate.num ≠ 0 ∧ st.r_frame_rate.den ≠ 0
       then st.r_frame_rate else ⟨25, 1⟩) ∧
    frame_number_to_stream_ts n st =
      av_rescale_q n (av_inv_q (effective_frame_rate st)) st.time_base ∧
    pts_to_frame_number ts st =
      av_rescale_q ts st.time_base (av_inv_q (effective_frame_rate st)) := by
  refine ⟨?_, frame_ts_via_effective_rate n st, pts_fn_via_effective_rate ts st⟩
  rw [effective_frame_rate_eq]
  by_cases hA : st.avg_frame_rate.num = 0
  · rw [if_pos hA]
    by_cases hB : st.r_frame_rate.num = 0 ∨ st.r_frame_rate.den = 0
    · rw [if_pos hB, if_neg ?_]
      rintro ⟨-, hn, hd⟩
      rcases hB with hB | hB
      · exact hn hB
      · exact hd hB
    · push_neg at hB
      have hOr : ¬(st.r_frame_rate.num = 0 ∨ st.r_frame_rate.den = 0) := by
        rintro (hx | hx)
        · exact hB.1 hx
        · exact hB.2 hx
      have hAnd : st.avg_frame_rate.num = 0 ∧ st.r_frame_rate.num ≠ 0 ∧
          st.r_frame_rate.den ≠ 0 := ⟨hA, hB.1, hB.2⟩
      rw [if_neg hOr, if_pos hAnd]
  · have hd : st.avg_frame_rate.den = 0 := by
      rcases h with h | h
      · exact absurd h hA
      · exact h
    rw [if_neg hA, if_pos hd, if_neg ?_]
    rintro ⟨hx, -, -⟩
    exact hA hx

/-- Witness for the amended C4 on a stream with a zero average rate and a
valid 30 fps real base rate. -/
theorem fallback_rate_amended_witness :
    effective_frame_rate stZeroAvg =
      (if stZeroAvg.avg_frame_rate.num = 0 ∧ stZeroAvg.r_frame_rate.num ≠ 0 ∧
          stZeroAvg.r_frame_rate.den ≠ 0
       then stZeroAvg.r_frame_rate else ⟨25, 1⟩) ∧
    frame_number_to_stream_ts 1 stZeroAvg =
      av_rescale_q 1 (av_inv_q (effective_frame_rate stZeroAvg)) stZeroAvg.time_base ∧
    pts_to_frame_number 3000 stZeroAvg =
      av_rescale_q 3000 stZeroAvg.time_base (av_inv_q (effective_frame_rate stZeroAvg)) :=
  fallback_rate_amended stZeroAvg 1 3000 (Or.inl (by decide))

/-- Counterexample to C5: with `last_shown_pts = 10` and target timestamp
100, two consecutive timestamp-less frames examined by one seek scan are
both assigned the same synthesized effective timestamp `11` (the scan,
which really passes over both, returns the later stamped frame), so the
sequence of effective timestamps of timestamp-less frames is not
monotonically increasing and the second synthesized value is not strictly
greater than the previously assigned one. -/
theorem synthesized_pts_collide :
    scan_frames_trace 10 100 cexFrames = [11, 11, 200] ∧
    scan_frames 10 100 cexFrames = some (fr200, 200) ∧
    ¬ List.Pairwise (fun a b : Int => a < b) (scan_frames_trace 10 100 cexFrames) := by
  refine ⟨by decide, by decide, by decide⟩

/-- C5 as amended: the effective timestamp prefers the best-effort
timestamp, else the frame's own timestamp, else the synthesized
`last_shown_pts + 1`; the synthesized value is deterministic, but since
`last_shown_pts` advances only on delivery, every effective timestamp
assigned during one scan — including every synthesized one — is computed
against the same pre-scan `last_shown_pts`, so timestamp-less frames skipped
within a single scan all receive the identical value `last_shown_pts + 1`
rather than strictly increasing ones. -/
theorem synthesized_pts_amended (last target_ts : Int) (fs : List DecFrame) (f : DecFrame)
    (hb : f.best_effort_timestamp = AV_NOPTS_VALUE) (hp : f.pts = AV_NOPTS_VALUE) :
    (∀ g : DecFrame, effective_pts last g =
      (if g.best_effort_timestamp ≠ AV_NOPTS_VALUE then g.best_effort_timestamp
       else if g.pts = AV_NOPTS_VALUE then last + 1 else g.pts)) ∧
    effective_pts last f = last + 1 ∧
    ∀ x ∈ scan_frames_trace last target_ts fs, ∃ g, g ∈ fs ∧ x = effective_pts last g := by
  refine ⟨?_, ?_, ?_⟩
  · intro g
    unfold effective_pts
    by_cases hg : g.best_effort_timestamp ≠ AV_NOPTS_VALUE
    · rw [if_pos hg, if_pos hg, if_neg hg]
    · rw [if_neg hg, if_neg hg]
  · unfold effective_pts
    rw [if_neg (not_not_intro hb), if_pos hp]
  · induction fs with
    | nil => intro x hx; exact absurd hx (by simp [scan_frames_trace])
    | cons g rest ih =>
      intro x hx
      by_cases hge : effective_pts last g ≥ target_ts
      · rw [show scan_frames_trace last target_ts (g :: rest) = [effective_pts last g] by
          simp [scan_frames_trace, hge]] at hx
        rcases List.mem_singleton.mp hx with hx
        exact ⟨g, List.mem_cons_self g rest, hx⟩
      · rw [show scan_frames_trace last target_ts (g :: rest) =
            effective_pts last g :: scan_frames_trace last target_ts rest by
          simp [scan_frames_trace, hge]] at hx
        rcases List.mem_cons.mp hx with hx | hx
        · exact ⟨g, List.mem_cons_self g rest, hx⟩
        · rcases ih x hx with ⟨g', hg', hx'⟩
          exact ⟨g', List.mem_cons_of_mem g hg', hx'⟩

/-- Witness for the amended C5: a timestamp-less frame scanned against
`last_shown_pts = 10` is assigned the synthesized timestamp 11. -/
theorem synthesized_pts_amended_witness : effective_pts 10 frNoTs = 10 + 1 :=
  (synthesized_pts_amended 10 100 cexFrames frNoTs rfl rfl).2.1

lemma effective_frame_rate_pos (st : AVStreamInfo) (hv : ValidStream st) :
    0 < (effective_frame_rate st).num ∧ 0 < (effective_frame_rate st).den := by
  obtain ⟨-, -, h3, h4, h5, h6⟩ := hv
  rw [effective_frame_rate_eq]
  by_cases hA : st.avg_frame_rate.num = 0
  · rw [if_pos hA]
    by_cases hB : st.r_frame_rate.num = 0 ∨ st.r_frame_rate.den = 0
    · rw [if_pos hB]
      exact ⟨by norm_num, by norm_num⟩
    · push_neg at hB
      rw [if_neg ?_]
      · exact ⟨lt_of_le_of_ne h5 (Ne.symm hB.1), lt_of_le_of_ne h6 (Ne.symm hB.2)⟩
      · rintro (hx | hx)
        · exact hB.1 hx
        · exact hB.2 hx
  · rw [if_neg hA]
    by_cases hB : st.avg_frame_rate.den = 0
    · rw [if_pos hB]
      exact ⟨by norm_num, by norm_num⟩
    · rw [if_neg hB]
      exact ⟨lt_of_le_of_ne h3 (Ne.symm hA), lt_of_le_of_ne h4 (Ne.symm hB)⟩

lemma frame_ts_nonneg (st : AVStreamInfo) (hv : ValidStream st) (n : Int) (hn : 0 ≤ n) :
    0 ≤ frame_number_to_stream_ts n st := by
  rw [frame_ts_via_effective_rate]
  have htn : 0 < st.time_base.num := hv.1
  have htd : 0 < st.time_base.den := hv.2.1
  obtain ⟨hrn, hrd⟩ := effective_frame_rate_pos st hv
  unfold av_rescale_q av_inv_q av_rescale_rnd_near
  rw [if_neg (not_lt.mpr hn)]
  unfold rescale_core
  have hb : (0 : Int) ≤ (effective_frame_rate st).den * st.time_base.den :=
    mul_nonneg (le_of_lt hrd) (le_of_lt htd)
  have hc : (0 : Int) ≤ st.time_base.num * (effective_frame_rate st).num :=
    mul_nonneg (le_of_lt htn) (le_of_lt hrn)
  exact Int.tdiv_nonneg
    (add_nonneg (mul_nonneg hn hb) (Int.tdiv_nonneg hc (by norm_num))) hc

/-- C9: before any frame has been delivered `last_shown_pts` holds
`AV_NOPTS_VALUE` (the minimum 64-bit signed integer), so a first decoded
frame carrying neither a best-effort timestamp nor its own timestamp is
assigned the synthesized effective timestamp `AV_NOPTS_VALUE + 1`, which is
below the (non-negative) target timestamp of any non-negative target frame
number: the seek scan skips that frame instead of returning it. -/
theorem first_sentinel_frame_skipped (st : AVStreamInfo) (hv : ValidStream st)
    (tfn : Int) (htf : 0 ≤ tfn) (f0 : DecFrame)
    (hb : f0.best_effort_timestamp = AV_NOPTS_VALUE) (hp : f0.pts = AV_NOPTS_VALUE)
    (rest : List DecFrame) :
    effective_pts AV_NOPTS_VALUE f0 = AV_NOPTS_VALUE + 1 ∧
    effective_pts AV_NOPTS_VALUE f0 < frame_number_to_stream_ts tfn st ∧
    scan_frames AV_NOPTS_VALUE (frame_number_to_stream_ts tfn st) (f0 :: rest) =
      scan_frames AV_NOPTS_VALUE (frame_number_to_stream_ts tfn st) rest := by
  have h1 : effective_pts AV_NOPTS_VALUE f0 = AV_NOPTS_VALUE + 1 := by
    unfold effective_pts
    rw [if_neg (not_not_intro hb), if_pos hp]
  have h2 : effective_pts AV_NOPTS_VALUE f0 < frame_number_to_stream_ts tfn st := by
    rw [h1]
    calc AV_NOPTS_VALUE + 1 < 0 := by unfold AV_NOPTS_VALUE; norm_num
    _ ≤ frame_number_to_stream_ts tfn st := frame_ts_nonneg st hv tfn htf
  refine ⟨h1, h2, ?_⟩
  simp [scan_frames, not_le.mpr h2]

/-- Witness for C9 on a fresh 25 fps / (1,90000) session seeking frame 0
with a fully timestamp-less first frame. -/
theorem first_sentinel_frame_skipped_witness :
    effective_pts AV_NOPTS_VALUE frNoTs = AV_NOPTS_VALUE + 1 ∧
    effective_pts AV_NOPTS_VALUE frNoTs < frame_number_to_stream_ts 0 stW ∧
    scan_frames AV_NOPTS_VALUE (frame_number_to_stream_ts 0 stW) [frNoTs, fr0] =
      scan_frames AV_NOPTS_VALUE (frame_number_to_stream_ts 0 stW) [fr0] :=
  first_sentinel_frame_skipped stW (by decide) 0 (by decide) frNoTs rfl rfl [fr0]

lemma roundtrip_nat (n b c : Nat) (hc : 0 < c) (hcb : c ≤ b) :
    ((n * b + c / 2) / c * c + b / 2) / b = n := by
  rcases Nat.eq_or_lt_of_le hcb with h | h
  · subst h
    have hlt : c / 2 < c := Nat.div_lt_self hc one_lt_two
    have key : ∀ m : Nat, (m * c + c / 2) / c = m := by
      intro m
      rw [Nat.mul_comm, Nat.mul_add_div hc, Nat.div_eq_of_lt hlt, Nat.add_zero]
    rw [key, key]
  · have hdm := Nat.div_add_mod' (n * b + c / 2) c
    have hmod : (n * b + c / 2) % c < c := Nat.mod_lt _ hc
    apply Nat.div_eq_of_lt_le
    · obtain ⟨X, hX⟩ : ∃ X, (n * b + c / 2) / c * c = X := ⟨_, rfl⟩
      rw [hX] at hdm ⊢
      obtain ⟨M, hM⟩ : ∃ M, (n * b + c / 2) % c = M := ⟨_, rfl⟩
      rw [hM] at hdm hmod
      obtain ⟨Y, hY⟩ : ∃ Y, n * b = Y := ⟨_, rfl⟩
      rw [hY] at hdm ⊢
      omega
    · rw [Nat.succ_mul]
      obtain ⟨X, hX⟩ : ∃ X, (n * b + c / 2) / c * c = X := ⟨_, rfl⟩
      rw [hX] at hdm ⊢
      obtain ⟨M, hM⟩ : ∃ M, (n * b + c / 2) % c = M := ⟨_, rfl⟩
      rw [hM] at hdm hmod
      obtain ⟨Y, hY⟩ : ∃ Y, n * b = Y := ⟨_, rfl⟩
      rw [hY] at hdm ⊢
      omega

lemma rescale_core_natCast (a b c : Nat) :
    rescale_core (a : Int) (b : Int) (c : Int) = (((a * b + c / 2) / c : Nat) : Int) := rfl

lemma roundtrip_int (n b c : Int) (hn : 0 ≤ n) (hc : 0 < c) (hcb : c ≤ b) :
    rescale_core (rescale_core n b c) c b = n := by
  have hb : 0 < b := lt_of_lt_of_le hc hcb
  lift n to ℕ using hn with N
  lift b to ℕ using le_of_lt hb with B
  lift c to ℕ using le_of_lt hc with C
  rw [rescale_core_natCast, rescale_core_natCast]
  norm_cast
  exact roundtrip_nat N B C (by exact_mod_cast hc) (by exact_mod_cast hcb)

/-- Counterexample to C3: at 25 fps over the (perfectly well-formed) coarse
time base 1/10, frame 1 maps to timestamp 0 and back to frame 0, so the
round-trip and drift-freedom claimed for every frame rate and every stream
time base fails. -/
theorem timestamp_roundtrip_counterexample :
    frame_number_to_stream_ts 1 stCoarse = 0 ∧
    pts_to_frame_number (frame_number_to_stream_ts 1 stCoarse) stCoarse = 0 ∧
    (0 : Int) ≠ 1 := by
  refine ⟨by decide, by decide, by decide⟩

/-- C3 as amended: for every non-negative frame number, the round-trip
`timestampToFrame (frameToTimestamp n) = n` holds in exact integer
arithmetic (both conversions use `av_rescale_q`, no floating point) whenever
one frame lasts at least one time-base tick, i.e.
`time_base.num * rate.num ≤ rate.den * time_base.den` for the (positive)
effective rate — the condition the coarse-time-base counterexample
violates. -/
theorem timestamp_roundtrip_exact (st : AVStreamInfo) (n : Int) (hn : 0 ≤ n)
    (htbn : 0 < st.time_base.num) (htbd : 0 < st.time_base.den)
    (hfn : 0 < (effective_frame_rate st).num) (hfd : 0 < (effective_frame_rate st).den)
    (hfine : st.time_base.num * (effective_frame_rate st).num ≤
      (effective_frame_rate st).den * st.time_base.den) :
    pts_to_frame_number (frame_number_to_stream_ts n st) st = n := by
  have hb : 0 < (effective_frame_rate st).den * st.time_base.den := mul_pos hfd htbd
  have hc : 0 < st.time_base.num * (effective_frame_rate st).num := mul_pos htbn hfn
  have h1 : frame_number_to_stream_ts n st =
      rescale_core n ((effective_frame_rate st).den * st.time_base.den)
        (st.time_base.num * (effective_frame_rate st).num) := by
    have hq : frame_number_to_stream_ts n st =
        av_rescale_rnd_near n ((effective_frame_rate st).den * st.time_base.den)
          (st.time_base.num * (effective_frame_rate st).num) := rfl
    rw [hq]
    unfold av_rescale_rnd_near
    rw [if_neg (not_lt.mpr hn)]
  have hts : 0 ≤ rescale_core n ((effective_frame_rate st).den * st.time_base.den)
      (st.time_base.num * (effective_frame_rate st).num) :=
    Int.tdiv_nonneg
      (add_nonneg (mul_nonneg hn (le_of_lt hb)) (Int.tdiv_nonneg (le_of_lt hc) (by norm_num)))
      (le_of_lt hc)
  have h2 : ∀ ts : Int, 0 ≤ ts → pts_to_frame_number ts st =
      rescale_core ts (st.time_base.num * (effective_frame_rate st).num)
        ((effective_frame_rate st).den * st.time_base.den) := by
    intro ts hts'
    have hq : pts_to_frame_number ts st =
        av_rescale_rnd_near ts (st.time_base.num * (effective_frame_rate st).num)
          ((effective_frame_rate st).den * st.time_base.den) := rfl
    rw [hq]
    unfold av_rescale_rnd_near
    rw [if_neg (not_lt.mpr hts')]
  rw [h1, h2 _ hts]
  exact roundtrip_int n _ _ hn hc hfine

/-- Witness for the amended C3 at frame 7 of a 25 fps, 1/90000 stream. -/
theorem timestamp_roundtrip_exact_witness :
    pts_to_frame_number (frame_number_to_stream_ts 7 stW) stW = 7 :=
  timestamp_roundtrip_exact stW 7 (by decide) (by decide) (by decide) (by decide)
    (by decide) (by decide)

lemma scan_packets_shape (p : FFPlayer) (t : Int) (pks : List Packet) :
    (scan_packets p t pks).2 = p ∨
    ∃ pts, (scan_packets p t pks).2 = { p with last_shown_pts := pts } := by
  induction pks with
  | nil => exact Or.inl rfl
  | cons pk rest ih =>
    by_cases hidx : pk.stream_index = p.video_stream_idx
    · by_cases hsend : pk.send_ok = true
      · rcases hsf : scan_frames p.last_shown_pts t pk.frames with _ | ⟨f, pts⟩
        · have hstep : scan_packets p t (pk :: rest) = scan_packets p t rest := by
            simp [scan_packets, hidx, hsend, hsf]
          rw [hstep]
          exact ih
        · have hstep : scan_packets p t (pk :: rest) =
              (some f, { p with last_shown_pts := pts }) := by
            simp [scan_packets, hidx, hsend, hsf]
          rw [hstep]
          exact Or.inr ⟨pts, rfl⟩
      · have hsend' : pk.send_ok = false := by
          cases hx : pk.send_ok
          · rfl
          · exact absurd hx hsend
        have hstep : scan_packets p t (pk :: rest) = scan_packets p t rest := by
          simp [scan_packets, hidx, hsend']
        rw [hstep]
        exact ih
    · have hstep : scan_packets p t (pk :: rest) = scan_packets p t rest := by
        simp [scan_packets, hidx]
      rw [hstep]
      exact ih

lemma seek_video_stream (p : FFPlayer) (tfn : Int) (env : DecodeEnv) :
    (seek_and_decode_frame p tfn env).2.video_stream = p.video_stream := by
  unfold seek_and_decode_frame
  cases hok : env.seek_ok
  · simp
  · simp only [Bool.true_eq_false, if_false]
    rcases scan_packets_shape p (frame_number_to_stream_ts tfn p.video_stream) env.packets
      with h | ⟨pts, h⟩
    · rw [h]
    · rw [h]

lemma decode_next_shape (p : FFPlayer) (pks : List Packet) :
    (decode_next_frame p pks).2 = p ∨
    ∃ pts, (decode_next_frame p pks).2 = { p with last_shown_pts := pts } := by
  induction pks with
  | nil => exact Or.inl rfl
  | cons pk rest ih =>
    by_cases hidx : pk.stream_index = p.video_stream_idx
    · by_cases hsend : pk.send_ok = true
      · rcases hfr : pk.frames with _ | ⟨f, fs⟩
        · have hstep : decode_next_frame p (pk :: rest) = decode_next_frame p rest := by
            simp [decode_next_frame, hidx, hsend, hfr]
          rw [hstep]
          exact ih
        · have hstep : decode_next_frame p (pk :: rest) =
              (some f, { p with last_shown_pts := effective_pts p.last_shown_pts f }) := by
            simp [decode_next_frame, hidx, hsend, hfr]
          rw [hstep]
          exact Or.inr ⟨effective_pts p.last_shown_pts f, rfl⟩
      · have hsend' : pk.send_ok = false := by
          cases hx : pk.send_ok
          · rfl
          · exact absurd hx hsend
        have hstep : decode_next_frame p (pk :: rest) = decode_next_frame p rest := by
          simp [decode_next_frame, hidx, hsend']
        rw [hstep]
        exact ih
    · have hstep : decode_next_frame p (pk :: rest) = decode_next_frame p rest := by
        simp [decode_next_frame, hidx]
      rw [hstep]
      exact ih

lemma loop_step_inv (s : LoopState) (k : Key) (env : DecodeEnv) (h : LoopInv s) :
    LoopInv (loop_step s k env) := by
  cases k
  case tick =>
    cases hp : s.playing
    · simpa [loop_step, hp, LoopInv] using h
    · rcases hres : decode_next_frame s.player env.packets with ⟨of, p'⟩
      cases of
      case none =>
        have hps : p' = s.player := by
          have h0 : (decode_next_frame s.player env.packets).1 = none := by rw [hres]
          have h1 := decode_next_none_eq s.player env.packets h0
          rw [hres] at h1
          exact h1
        simp only [LoopInv, loop_step, hp, hres]
        simpa [hps, LoopInv] using h
      case some f =>
        simp [LoopInv, loop_step, hp, hres]
  case quit => simpa [loop_step, LoopInv] using h
  case space => simpa [loop_step, LoopInv] using h
  case stepN =>
    rcases hres : seek_and_decode_frame s.player (s.current_frame + 1) env with ⟨of, p'⟩
    cases of
    case none =>
      have hps : p' = s.player := by
        have h0 : (seek_and_decode_frame s.player (s.current_frame + 1) env).1 = none := by
          rw [hres]
        have h1 := seek_none_eq _ _ _ h0
        rw [hres] at h1
        exact h1
      simp only [LoopInv, loop_step, hres]
      simpa [hps, LoopInv] using h
    case some f =>
      simp [LoopInv, loop_step, hres]
  case stepB =>
    rcases hres : seek_and_decode_frame s.player
        (if s.current_frame > 0 then s.current_frame - 1 else 0) env with ⟨of, p'⟩
    cases of
    case none =>
      have hps : p' = s.player := by
        have h0 : (seek_and_decode_frame s.player
            (if s.current_frame > 0 then s.current_frame - 1 else 0) env).1 = none := by
          rw [hres]
        have h1 := seek_none_eq _ _ _ h0
        rw [hres] at h1
        exact h1
      simp only [LoopInv, loop_step, hres]
      simpa [hps, LoopInv] using h
    case some f =>
      simp [LoopInv, loop_step, hres]
  case playS => simpa [loop_step, LoopInv] using h
  case pauseP => simpa [loop_step, LoopInv] using h
  case other => simpa [loop_step, LoopInv] using h

lemma run_inv (inputs : List (Key × DecodeEnv)) :
    ∀ s : LoopState, LoopInv s → LoopInv (run s inputs) := by
  induction inputs with
  | nil => intro s h; exact h
  | cons ke rest ih =>
    intro s h
    rcases ke with ⟨k, env⟩
    simp only [run]
    by_cases hq : s.quit = true
    · rw [if_pos hq]
      exact h
    · rw [if_neg hq]
      exact ih _ (loop_step_inv s k env h)

lemma open_inv (st : AVStreamInfo) (idx : Int) (env : DecodeEnv) (s0 : LoopState)
    (h : ffplayer_open st idx env = some s0) : LoopInv s0 := by
  simp only [ffplayer_open] at h
  rcases hres : seek_and_decode_frame (initial_player st idx) 0 env with ⟨of, p1⟩
  rw [hres] at h
  cases of
  · exact absurd h (by simp)
  · simp only [Option.some.injEq] at h
    rw [← h]
    rfl

/-- C1: the drift-prevention invariant of the playback loop.  Starting from
any successfully opened session, after any sequence of key events and decoder
behaviours — interleaving the seek-scan path (`n`/`b` steps) and the
sequential path (play ticks) arbitrarily — `current_frame` always equals
`pts_to_frame_number` of `last_shown_pts`: it is recomputed from the
delivered frame's timestamp after every shown frame and never maintained as
an independently incremented counter. -/
theorem currentFrame_recomputed_invariant (st : AVStreamInfo) (idx : Int)
    (env0 : DecodeEnv) (s0 : LoopState) (h : ffplayer_open st idx env0 = some s0)
    (inputs : List (Key × DecodeEnv)) :
    (run s0 inputs).current_frame =
      pts_to_frame_number (run s0 inputs).player.last_shown_pts
        (run s0 inputs).player.video_stream :=
  run_inv inputs s0 (open_inv st idx env0 s0 h)

/-- Witness for C1: a concrete opened session followed by a forward step. -/
theorem currentFrame_recomputed_invariant_witness :
    (run openWState [(Key.stepN, envLate)]).current_frame =
      pts_to_frame_number (run openWState [(Key.stepN, envLate)]).player.last_shown_pts
        (run openWState [(Key.stepN, envLate)]).player.video_stream :=
  currentFrame_recomputed_invariant stW 0 envW openWState (by decide)
    [(Key.stepN, envLate)]

/-- Counterexample to C7: opening a (valid, 25 fps, 1/90000) stream whose
first decodable frame is stamped 18000 succeeds, but leaves `current_frame`
at 5, not 0: the code stores `pts_to_frame_number(last_shown_pts)`, which is
0 only when the first frame's timestamp itself maps to frame 0. -/
theorem open_currentFrame_counterexample :
    (ffplayer_open stW 0 envLate).isSome = true ∧
    (ffplayer_open stW 0 envLate).map LoopState.current_frame = some 5 ∧
    (5 : Int) ≠ 0 := by
  refine ⟨by decide, by decide, by decide⟩

/-- C7 as amended: a successful open obtains its first frame through the
ordinary `seek_and_decode_frame` path with target frame 0 (no special-cased
rewind), converts and emits it, and leaves the loop paused (not quitting)
with `current_frame` recomputed as `pts_to_frame_number(last_shown_pts)` —
which equals 0 exactly when the first frame's effective timestamp maps to
frame 0, and not in general. -/
theorem open_paused_currentFrame_recomputed (st : AVStreamInfo) (idx : Int)
    (env : DecodeEnv) (s : LoopState) (h : ffplayer_open st idx env = some s) :
    s.playing = false ∧ s.quit = false ∧
    (seek_and_decode_frame (initial_player st idx) 0 env).1.isSome = true ∧
    s.player.last_shown_pts =
      (seek_and_decode_frame (initial_player st idx) 0 env).2.last_shown_pts ∧
    s.current_frame = pts_to_frame_number s.player.last_shown_pts st := by
  have hvs : (seek_and_decode_frame (initial_player st idx) 0 env).2.video_stream = st :=
    seek_video_stream (initial_player st idx) 0 env
  simp only [ffplayer_open] at h
  rcases hres : seek_and_decode_frame (initial_player st idx) 0 env with ⟨of, p1⟩
  rw [hres] at h
  cases of
  · exact absurd h (by simp)
  · simp only [Option.some.injEq] at h
    have hvs' : p1.video_stream = st := by
      rw [hres] at hvs
      exact hvs
    rw [← h]
    refine ⟨rfl, rfl, rfl, rfl, ?_⟩
    show pts_to_frame_number p1.last_shown_pts p1.video_stream =
      pts_to_frame_number p1.last_shown_pts st
    rw [hvs']

/-- Witness for the amended C7 on a stream whose first frame is stamped 0. -/
theorem open_paused_currentFrame_recomputed_witness :
    openWState.playing = false ∧ openWState.quit = false ∧
    (seek_and_decode_frame (initial_player stW 0) 0 envW).1.isSome = true ∧
    openWState.player.last_shown_pts =
      (seek_and_decode_frame (initial_player stW 0) 0 envW).2.last_shown_pts ∧
    openWState.current_frame =
      pts_to_frame_number openWState.player.last_shown_pts stW :=
  open_paused_currentFrame_recomputed stW 0 envW openWState (by decide)
